import Mathlib

/-!
Shallow embedding of the bg.remover service (FastAPI background-removal API).

Sources embedded:
- app/config.py          : `Settings` and its defaults
- app/services/bg_service.py : `validate_image` and the resize step of
  `remove_background`
- app/routers/remove_bg.py   : the `/api/remove-bg` route and `/api/health`
- app/main.py            : the root route

Modelling conventions:
- Upload bytes are `List Nat`; only their length and their decodability are
  ever inspected by the embedded code.
- PIL's `Image.open` + `verify` (an external library call) is an oracle
  parameter `verify : List Nat → VerifyResult`.
- The whole decode/segment/encode pipeline (`remove_background`), whose pixel
  work is done by the external rembg model, is an oracle parameter
  `process : List Nat → Except String (List Nat)` at the HTTP layer; its
  resize step is embedded separately as `normalizeBitmap`.
- Python `str.lower()` is embedded charwise as `Char.toLower` (ASCII).
- Python float arithmetic in the resize step is embedded exactly: `rnd53`
  rounds a positive rational to the nearest IEEE binary64 value (round to
  nearest, ties to even; every quantity in this computation lies in the
  normal range for realistic image dimensions), and `floatResizeHeight`
  composes the two roundings of `height * (maxImageWidth / width)` with the
  truncation performed by `int()`. The `:.2f` format of `len/2^20` is
  embedded with round-half-even ties, matching CPython's formatting of the
  (exact, for n < 2^53) double.
-/

namespace BgRemover

/-- `Settings` from app/config.py: environment-sourced fields with defaults. -/
structure Settings where
  host : String
  port : Nat
  maxFileSizeMB : Nat
  maxImageWidth : Nat
  apiTitle : String
  apiVersion : String
deriving DecidableEq

/-- `MAX_FILE_SIZE_BYTES = MAX_FILE_SIZE_MB * 1024 * 1024` (config.py line 25). -/
def Settings.maxFileSizeBytes (s : Settings) : Nat :=
  s.maxFileSizeMB * 1024 * 1024

/-- The default values of every environment-sourced setting (config.py). -/
def defaultSettings : Settings :=
  { host := "0.0.0.0", port := 8000, maxFileSizeMB := 5, maxImageWidth := 1024,
    apiTitle := "Background Remover API", apiVersion := "1.0.0" }

/-- `ALLOWED_EXTENSIONS` (config.py). The CPython value is a set whose
iteration order is unspecified; it is embedded as a list in literal order, and
only order-independent facts are proved about its joined rendering. -/
def allowedExtensions : List String :=
  [".jpg", ".jpeg", ".png"]

/-- Round `q / d` to the nearest integer, ties to even (the rounding CPython
uses when formatting a float with two fractional digits). -/
def roundHalfEven (q d : Nat) : Nat :=
  if 2 * (q % d) < d then q / d
  else if d < 2 * (q % d) then q / d + 1
  else if q / d % 2 = 0 then q / d else q / d + 1

/-- Render a count of hundredths as a decimal numeral with exactly two
fractional digits, e.g. `fmt2f 512 = "5.12"`. -/
def fmt2f (cent : Nat) : String :=
  toString (cent / 100) ++ "." ++ (if cent % 100 < 10 then "0" else "") ++ toString (cent % 100)

/-- The f-string piece `{file_size_mb:.2f}` of bg_service.py, where
`file_size_mb = len(image_bytes) / (1024 * 1024)`. -/
def fmtSizeMB (n : Nat) : String :=
  fmt2f (roundHalfEven (n * 100) (1024 * 1024))

/-- The size-failure message of `validate_image` (bg_service.py line 82). -/
def sizeReason (s : Settings) (n : Nat) : String :=
  "File too large. Maximum size is " ++ toString s.maxFileSizeMB ++ "MB, got "
    ++ fmtSizeMB n ++ "MB"

/-- The type-failure message of `validate_image` (bg_service.py line 88). -/
def extReason : String :=
  "Invalid file type. Allowed types: " ++ String.intercalate ", " allowedExtensions

/-- The decode-failure message of `validate_image` (bg_service.py line 96). -/
def corruptReason (e : String) : String :=
  "Invalid or corrupted image file: " ++ e

/-- Helper for `rfindDot`: scan left to right keeping the last dot index. -/
def rfindDotAux : List Char → Nat → Option Nat → Option Nat
  | [], _, acc => acc
  | c :: cs, i, acc => rfindDotAux cs (i + 1) (if c = '.' then some i else acc)

/-- Python `filename.rfind('.')`: the highest index of a dot, `none` when the
string has no dot (where Python returns -1). -/
def rfindDot (cs : List Char) : Option Nat :=
  rfindDotAux cs 0 none

/-- `file_extension = filename.lower()[filename.rfind('.'):]`
(bg_service.py line 85). When `rfind` returns -1 the Python slice `[-1:]` is
the LAST character of the lowered string (empty only for an empty string), not
the empty string. -/
def fileExt (filename : String) : String :=
  let lowered := filename.data.map Char.toLower
  match rfindDot filename.data with
  | some i => ⟨lowered.drop i⟩
  | none => ⟨lowered.drop (lowered.length - 1)⟩

/-- Outcome of PIL `Image.open` + `image.verify()`, an external library call
treated as an oracle: `ok`, or an exception carrying a message. -/
inductive VerifyResult where
  | ok : VerifyResult
  | error (msg : String) : VerifyResult
deriving DecidableEq

/-- `BackgroundRemovalService.validate_image` (bg_service.py lines 64-96). -/
def validate_image (s : Settings) (verify : List Nat → VerifyResult)
    (image_bytes : List Nat) (filename : String) : Bool × String :=
  if image_bytes.length > s.maxFileSizeBytes then
    (false, sizeReason s image_bytes.length)
  else if fileExt filename ∉ allowedExtensions then
    (false, extReason)
  else
    match verify image_bytes with
    | .ok => (true, "")
    | .error e => (false, corruptReason e)

/-- A decoded bitmap: dimensions plus an abstract pixel buffer. -/
structure Bitmap where
  width : Nat
  height : Nat
  pixels : List Nat
deriving DecidableEq

/-- Round-half-even to an integer: the rounding IEEE-754 binary64 applies to
an infinitely precise result before storing it. -/
def roundHE (s : ℚ) : ℤ :=
  if s - Int.floor s < 1 / 2 then Int.floor s
  else if 1 / 2 < s - Int.floor s then Int.floor s + 1
  else if Int.floor s % 2 = 0 then Int.floor s else Int.floor s + 1

/-- The IEEE-754 binary64 value nearest to a positive rational (round to
nearest, ties to even): the significand is scaled into the 53-bit window
using `Int.log 2` and rounded half-even. The exponent is unbounded here, so
this agrees with a Python float operation on every value in the normal range
of binary64, which covers all quantities in the resize arithmetic for
realistic image dimensions; nonpositive input returns 0. -/
def rnd53 (q : ℚ) : ℚ :=
  if 0 < q then
    ((roundHE (q * (2 : ℚ) ^ (52 - Int.log 2 q)) : ℤ) : ℚ) * (2 : ℚ) ^ (Int.log 2 q - 52)
  else 0

/-- `new_height = int(input_image.height * ratio)` with
`ratio = settings.MAX_IMAGE_WIDTH / input_image.width` (bg_service.py lines
43-44) in IEEE binary64 arithmetic: the true division W/w is rounded to a
double, the product h * ratio is rounded to a double, and `int()` truncates
toward zero (floor, as the value is nonnegative). -/
def floatResizeHeight (h W w : Nat) : Nat :=
  (Int.floor (rnd53 ((h : ℚ) * rnd53 ((W : ℚ) / (w : ℚ))))).toNat

/-- Step 2 of `BackgroundRemovalService.remove_background` (bg_service.py
lines 41-50): downscale when too wide. The new height is the floating-point
computation `int(height * (MAX_IMAGE_WIDTH / width))` embedded by
`floatResizeHeight`; the Lanczos resampling of the pixel buffer is an oracle
parameter. -/
def normalizeBitmap (s : Settings) (resample : Bitmap → Nat → Nat → List Nat)
    (img : Bitmap) : Bitmap :=
  if img.width > s.maxImageWidth then
    { width := s.maxImageWidth,
      height := floatResizeHeight img.height s.maxImageWidth img.width,
      pixels := resample img s.maxImageWidth (floatResizeHeight img.height s.maxImageWidth img.width) }
  else img

/-- An HTTP response of the route: a streaming 200 with body and headers, or
an HTTPException with a status code and a detail string. -/
inductive Response where
  | stream (body : List Nat) (mediaType : String) (contentDisposition : String) : Response
  | httpError (statusCode : Nat) (detail : String) : Response
deriving DecidableEq

/-- `filename.rsplit('.', 1)[0]` (remove_bg.py line 77): everything before the
last dot; the whole filename when there is no dot. -/
def rsplitStem (filename : String) : String :=
  match rfindDot filename.data with
  | some i => ⟨filename.data.take i⟩
  | none => filename

/-- The POST /api/remove-bg handler (remove_bg.py lines 32-90): validate, on
failure raise 400 with the validation message; otherwise run the pipeline
oracle `process`, returning its PNG bytes as a streaming response or
converting any exception into a 500 with a wrapped detail. -/
def remove_background_route (s : Settings) (verify : List Nat → VerifyResult)
    (process : List Nat → Except String (List Nat))
    (image_bytes : List Nat) (filename : String) : Response :=
  let vr := validate_image s verify image_bytes filename
  if vr.1 = false then
    Response.httpError 400 vr.2
  else
    match process image_bytes with
    | .ok output_bytes =>
        Response.stream output_bytes "image/png"
          ("attachment; filename=no_bg_" ++ rsplitStem filename ++ ".png")
    | .error e => Response.httpError 500 ("Error processing image: " ++ e)

/-- Body of the GET /api/health handler (remove_bg.py lines 98-107). -/
structure HealthResponse where
  status : String
  message : String
  version : String
deriving DecidableEq

/-- GET /api/health (remove_bg.py): a constant payload; the version field is
the literal "1.0.0", not read from `Settings`. -/
def health_check : HealthResponse :=
  { status := "healthy", message := "Background Remover API is running",
    version := "1.0.0" }

/-- Body of the GET / handler (main.py lines 38-52). -/
structure RootResponse where
  message : String
  version : String
  docs : String
  health : String
  removeBackgroundEndpoint : String
deriving DecidableEq

/-- GET / (main.py): API metadata; the version field is `settings.API_VERSION`. -/
def root (s : Settings) : RootResponse :=
  { message := "Welcome to Background Remover API", version := s.apiVersion,
    docs := "/docs", health := "/api/health",
    removeBackgroundEndpoint := "POST /api/remove-bg" }

/-- Spec-side extension (claim wording): the lower-cased substring from the
last dot of the filename to its end; by the spec's edge-case reading, the
empty string when the filename has no dot. -/
def specExt (filename : String) : String :=
  match rfindDot filename.data with
  | some i => ⟨(filename.data.drop i).map Char.toLower⟩
  | none => ""

/-- `r` starts with `p` (used to classify which check a reason came from). -/
abbrev startsWithStr (p r : String) : Prop :=
  r.data.take p.data.length = p.data

/-- `r` contains `p` as a contiguous substring. -/
def containsStr (p r : String) : Prop :=
  ∃ a b, r.data = a ++ p.data ++ b

/-- A reason is size-related when it starts with this text. -/
def sizeReasonPre : String := "File too large"

/-- A reason is extension-related when it starts with this text. -/
def extReasonPre : String := "Invalid file type"

/-- Oracle instances used to evaluate the embedding at concrete inputs. -/
def verifyOk : List Nat → VerifyResult := fun _ => .ok

/-- An always-failing decodability oracle with a PIL-style message. -/
def verifyBad : List Nat → VerifyResult := fun _ => .error "cannot identify image file"

/-- A pipeline oracle that succeeds with a fixed PNG byte list. -/
def processOk : List Nat → Except String (List Nat) := fun _ => .ok [7, 7, 7]

/-- A pipeline oracle that raises. -/
def processBoom : List Nat → Except String (List Nat) := fun _ => .error "boom"

/-- A second successful pipeline oracle, distinguishable from `processOk`. -/
def processOk2 : List Nat → Except String (List Nat) := fun _ => .ok [9]

/-- A trivial resampling oracle. -/
def resampleZero : Bitmap → Nat → Nat → List Nat := fun _ _ _ => []

end BgRemover

namespace BgRemover

/-! ### Helper lemmas -/

theorem strData_append (a b : String) : (a ++ b).data = a.data ++ b.data := rfl

theorem mbSplit : "MB, got ".data = "MB".data ++ ", got ".data := by decide

theorem sizeReason_data (s : Settings) (n : Nat) :
    (sizeReason s n).data =
      "File too large. Maximum size is ".data ++
        ((toString s.maxFileSizeMB).data ++
          ("MB, got ".data ++ ((fmtSizeMB n).data ++ "MB".data))) := by
  simp [sizeReason, strData_append, List.append_assoc]

theorem sizeReason_starts (s : Settings) (n : Nat) :
    startsWithStr sizeReasonPre (sizeReason s n) := by
  show (sizeReason s n).data.take sizeReasonPre.data.length = sizeReasonPre.data
  rw [sizeReason_data, List.take_append_of_le_length (by decide)]
  decide

theorem ext_not_sizePre : ¬ startsWithStr sizeReasonPre extReason := by decide

theorem extReason_starts : startsWithStr extReasonPre extReason := by decide

theorem size_not_extPre (s : Settings) (n : Nat) :
    ¬ startsWithStr extReasonPre (sizeReason s n) := by
  show ¬ (sizeReason s n).data.take extReasonPre.data.length = extReasonPre.data
  rw [sizeReason_data, List.take_append_of_le_length (by decide)]
  decide

theorem corrupt_not_sizePre (e : String) :
    ¬ startsWithStr sizeReasonPre (corruptReason e) := by
  show ¬ (corruptReason e).data.take sizeReasonPre.data.length = sizeReasonPre.data
  rw [show (corruptReason e).data =
        "Invalid or corrupted image file: ".data ++ e.data from rfl,
    List.take_append_of_le_length (by decide)]
  decide

theorem corrupt_not_extPre (e : String) :
    ¬ startsWithStr extReasonPre (corruptReason e) := by
  show ¬ (corruptReason e).data.take extReasonPre.data.length = extReasonPre.data
  rw [show (corruptReason e).data =
        "Invalid or corrupted image file: ".data ++ e.data from rfl,
    List.take_append_of_le_length (by decide)]
  decide

theorem sizeReason_contains_limit (s : Settings) (n : Nat) :
    containsStr (toString s.maxFileSizeMB ++ "MB") (sizeReason s n) := by
  refine ⟨"File too large. Maximum size is ".data,
    ", got ".data ++ ((fmtSizeMB n).data ++ "MB".data), ?_⟩
  rw [sizeReason_data, mbSplit]
  simp [strData_append, List.append_assoc]

theorem sizeReason_contains_size (s : Settings) (n : Nat) :
    containsStr (fmtSizeMB n ++ "MB") (sizeReason s n) := by
  refine ⟨"File too large. Maximum size is ".data ++
    ((toString s.maxFileSizeMB).data ++ "MB, got ".data), [], ?_⟩
  rw [sizeReason_data]
  simp [strData_append, List.append_assoc]

theorem fileExt_eq_specExt_of_dot (f : String) (i : Nat)
    (h : rfindDot f.data = some i) : fileExt f = specExt f := by
  unfold fileExt specExt
  rw [h]
  exact congrArg String.mk (List.map_drop Char.toLower f.data i).symm

theorem fileExt_len_of_none (f : String) (h : rfindDot f.data = none) :
    (fileExt f).data.length ≤ 1 := by
  unfold fileExt
  rw [h]
  show ((f.data.map Char.toLower).drop ((f.data.map Char.toLower).length - 1)).length ≤ 1
  rw [List.length_drop]
  omega

theorem short_not_mem (t : String) (h : t.data.length ≤ 1) :
    t ∉ allowedExtensions := by
  intro hm
  simp only [allowedExtensions, List.mem_cons, List.not_mem_nil, or_false] at hm
  rcases hm with rfl | rfl | rfl <;> exact absurd h (by decide)

theorem specExt_of_none (f : String) (h : rfindDot f.data = none) :
    specExt f = "" := by
  unfold specExt
  rw [h]

theorem specExt_mem_iff (f : String) :
    fileExt f ∈ allowedExtensions ↔ specExt f ∈ allowedExtensions := by
  cases hd : rfindDot f.data with
  | some i => rw [fileExt_eq_specExt_of_dot f i hd]
  | none =>
    constructor
    · intro h
      exact absurd h (short_not_mem _ (fileExt_len_of_none f hd))
    · intro h
      rw [specExt_of_none f hd] at h
      exact absurd h (by decide)

theorem validTrue_hasDot (s : Settings) (v : List Nat → VerifyResult)
    (b : List Nat) (f : String)
    (h : (validate_image s v b f).1 = true) : ∃ i, rfindDot f.data = some i := by
  unfold validate_image at h
  by_cases h1 : b.length > s.maxFileSizeBytes
  · rw [if_pos h1] at h
    exact absurd h (by simp)
  · rw [if_neg h1] at h
    by_cases h2 : fileExt f ∉ allowedExtensions
    · rw [if_pos h2] at h
      exact absurd h (by simp)
    · cases hd : rfindDot f.data with
      | some i => exact ⟨i, rfl⟩
      | none =>
        exact absurd (not_not.mp h2) (short_not_mem _ (fileExt_len_of_none f hd))

theorem roundHE_abs_le (s : ℚ) : |((roundHE s : ℤ) : ℚ) - s| ≤ 1 / 2 := by
  have h0 : ((Int.floor s : ℤ) : ℚ) ≤ s := Int.floor_le s
  have h1 : s < Int.floor s + 1 := Int.lt_floor_add_one s
  unfold roundHE
  split_ifs with ha hb hc <;> rw [abs_le] <;> constructor <;> push_cast <;> linarith

theorem rnd53_eq_of_bounds (q : ℚ) (e : ℤ) (h1 : (2:ℚ) ^ e ≤ q) (h2 : q < (2:ℚ) ^ (e + 1)) :
    rnd53 q = ((roundHE (q * (2:ℚ) ^ (52 - e)) : ℤ) : ℚ) * (2:ℚ) ^ (e - 52) := by
  have hq : 0 < q := lt_of_lt_of_le (zpow_pos (by norm_num) e) h1
  have hlog : Int.log 2 q = e := by
    have ha := Int.zpow_log_le_self (b := 2) (r := q) (by norm_num) hq
    have hb := Int.lt_zpow_succ_log_self (b := 2) (r := q) (by norm_num)
    rw [Nat.cast_ofNat] at ha hb
    by_contra hne
    rcases lt_or_gt_of_ne hne with hlt | hgt
    · have hstep : (2:ℚ) ^ (Int.log 2 q + 1) ≤ (2:ℚ) ^ e :=
        zpow_le_zpow_right₀ (by norm_num) (by omega)
      linarith
    · have hstep : (2:ℚ) ^ (e + 1) ≤ (2:ℚ) ^ (Int.log 2 q) :=
        zpow_le_zpow_right₀ (by norm_num) (by omega)
      linarith
  unfold rnd53
  rw [if_pos hq, hlog]

theorem floor_2_58_div_49 : Int.floor ((1/49 : ℚ) * (2:ℚ) ^ (58:ℤ)) = 5882252574524729 := by
  rw [Int.floor_eq_iff]
  constructor <;> norm_num

theorem rnd53_inv49 : rnd53 (1/49 : ℚ) = 5882252574524729 / 2 ^ 58 := by
  rw [rnd53_eq_of_bounds (1/49 : ℚ) (-6) (by norm_num) (by norm_num)]
  rw [show (52 : ℤ) - (-6) = 58 by norm_num, show (-6 : ℤ) - 52 = -58 by norm_num]
  unfold roundHE
  rw [floor_2_58_div_49]
  rw [if_pos (by push_cast; norm_num)]
  push_cast
  rw [zpow_neg]
  norm_num

theorem floor_nearOne_mul_2_53 :
    Int.floor ((288230376151711721/288230376151711744 : ℚ) * (2:ℚ) ^ (53:ℤ)) = 9007199254740991 := by
  rw [Int.floor_eq_iff]
  constructor <;> norm_num

theorem rnd53_nearOne :
    rnd53 ((49:ℚ) * (5882252574524729 / 2 ^ 58)) = 9007199254740991 / 2 ^ 53 := by
  rw [show (49:ℚ) * (5882252574524729 / 2 ^ 58) = 288230376151711721/288230376151711744 by norm_num]
  rw [rnd53_eq_of_bounds _ (-1) (by norm_num) (by norm_num)]
  rw [show (52 : ℤ) - (-1) = 53 by norm_num, show (-1 : ℤ) - 52 = -53 by norm_num]
  unfold roundHE
  rw [floor_nearOne_mul_2_53, if_pos (by push_cast; norm_num)]
  push_cast
  rw [zpow_neg]
  norm_num

theorem floatResizeHeight_50176 : floatResizeHeight 49 1024 50176 = 0 := by
  unfold floatResizeHeight
  rw [show ((1024:ℕ) : ℚ) / ((50176:ℕ) : ℚ) = 1/49 by norm_num]
  rw [rnd53_inv49]
  rw [show ((49:ℕ) : ℚ) * ((5882252574524729 : ℚ) / 2 ^ 58) = (49:ℚ) * (5882252574524729 / 2 ^ 58) by norm_num]
  rw [rnd53_nearOne]
  rw [show Int.floor ((9007199254740991 : ℚ) / 2 ^ 53) = 0 by
    rw [Int.floor_eq_iff]
    constructor <;> norm_num]
  rfl

theorem rnd53_abs_le (q : ℚ) (hq : 0 < q) :
    |rnd53 q - q| ≤ q / 9007199254740992 := by
  have hle : (2:ℚ) ^ Int.log 2 q ≤ q := by
    have ha := Int.zpow_log_le_self (b := 2) (r := q) (by norm_num) hq
    rw [Nat.cast_ofNat] at ha
    exact ha
  have hfac : rnd53 q - q =
      (((roundHE (q * (2:ℚ) ^ (52 - Int.log 2 q)) : ℤ) : ℚ) - q * (2:ℚ) ^ (52 - Int.log 2 q)) *
        (2:ℚ) ^ (Int.log 2 q - 52) := by
    unfold rnd53
    rw [if_pos hq, sub_mul, mul_assoc, ← zpow_add₀ (two_ne_zero),
      show (52 - Int.log 2 q) + (Int.log 2 q - 52) = 0 by ring, zpow_zero, mul_one]
  rw [hfac, abs_mul]
  have hpos : (0:ℚ) < (2:ℚ) ^ (Int.log 2 q - 52) := zpow_pos (by norm_num) _
  rw [abs_of_pos hpos]
  have hb := roundHE_abs_le (q * (2:ℚ) ^ (52 - Int.log 2 q))
  have hstep := mul_le_mul_of_nonneg_right hb (le_of_lt hpos)
  have h2 : (1/2 : ℚ) * (2:ℚ) ^ (Int.log 2 q - 52) = (2:ℚ) ^ (Int.log 2 q - 53) := by
    rw [show (Int.log 2 q - 53) = (-1) + (Int.log 2 q - 52) by ring, zpow_add₀ (two_ne_zero)]
    norm_num
  have h3 : (2:ℚ) ^ (Int.log 2 q - 53) ≤ q / 9007199254740992 := by
    rw [show (Int.log 2 q - 53 : ℤ) = Int.log 2 q + (-53) by ring, zpow_add₀ (two_ne_zero),
      div_eq_mul_inv, show ((2:ℚ) ^ (-53:ℤ)) = (9007199254740992:ℚ)⁻¹ by
        rw [zpow_neg]; norm_num]
    exact mul_le_mul_of_nonneg_right hle (by positivity)
  linarith

theorem floatResizeHeight_close (h W w : Nat)
    (hh1 : 1 ≤ h) (hhb : h ≤ 1048576) (hW1 : 1 ≤ W) (hWw : W < w) (hwb : w ≤ 1048576) :
    (floatResizeHeight h W w : ℤ) - ((h * W / w : ℕ) : ℤ) ≤ 1 ∧
    ((h * W / w : ℕ) : ℤ) - (floatResizeHeight h W w : ℤ) ≤ 1 := by
  have hw0 : 0 < w := by omega
  have hw0Q : (0:ℚ) < (w:ℚ) := by exact_mod_cast hw0
  have hW0Q : (0:ℚ) < (W:ℚ) := by exact_mod_cast (by omega : 0 < W)
  have hh0Q : (0:ℚ) < (h:ℚ) := by exact_mod_cast (by omega : 0 < h)
  unfold floatResizeHeight
  set q : ℚ := (W:ℚ) / (w:ℚ) with hqdef
  set r : ℚ := rnd53 q with hrdef
  set p : ℚ := rnd53 ((h:ℚ) * r) with hpdef
  obtain ⟨n, hn⟩ : ∃ n : ℕ, n = h * W / w := ⟨_, rfl⟩
  rw [← hn]
  have hq0 : 0 < q := div_pos hW0Q hw0Q
  have hq1 : q < 1 := by
    rw [hqdef, div_lt_one hw0Q]
    exact_mod_cast hWw
  have hr_err' : -(q / 9007199254740992) ≤ r - q ∧ r - q ≤ q / 9007199254740992 := by
    have := rnd53_abs_le q hq0
    rw [← hrdef] at this
    exact abs_le.mp this
  have hr0 : 0 < r := by linarith [hr_err'.1]
  set x : ℚ := (h:ℚ) * q with hxdef
  have hx0 : 0 < x := mul_pos hh0Q hq0
  have hxb : x ≤ 1048576 := by
    have hhQ : (h:ℚ) ≤ 1048576 := by exact_mod_cast hhb
    nlinarith
  have hhr0 : 0 < (h:ℚ) * r := mul_pos hh0Q hr0
  have hp_err' : -(((h:ℚ) * r) / 9007199254740992) ≤ p - (h:ℚ) * r ∧
      p - (h:ℚ) * r ≤ ((h:ℚ) * r) / 9007199254740992 := by
    have := rnd53_abs_le ((h:ℚ) * r) hhr0
    rw [← hpdef] at this
    exact abs_le.mp this
  have hup : (h:ℚ) * r - x ≤ x / 9007199254740992 := by
    have h1 := mul_le_mul_of_nonneg_left hr_err'.2 (le_of_lt hh0Q)
    calc (h:ℚ) * r - x = (h:ℚ) * (r - q) := by rw [hxdef]; ring
      _ ≤ (h:ℚ) * (q / 9007199254740992) := h1
      _ = x / 9007199254740992 := by rw [hxdef]; ring
  have hdown : x - (h:ℚ) * r ≤ x / 9007199254740992 := by
    calc x - (h:ℚ) * r = (h:ℚ) * (q - r) := by rw [hxdef]; ring
      _ ≤ (h:ℚ) * (q / 9007199254740992) := by
          refine mul_le_mul_of_nonneg_left ?_ (le_of_lt hh0Q)
          linarith [hr_err'.1]
      _ = x / 9007199254740992 := by rw [hxdef]; ring
  have hxM : x / 9007199254740992 ≤ 1048576 / 9007199254740992 := by gcongr
  have hrx_bound : (h:ℚ) * r ≤ 1048577 := by
    have : x / 9007199254740992 ≤ 1 := by
      rw [div_le_one (by norm_num)]
      linarith
    linarith
  have hhrM : ((h:ℚ) * r) / 9007199254740992 ≤ 1048577 / 9007199254740992 := by gcongr
  have hp_x_up : p - x < 1 := by linarith [hp_err'.2]
  have hp_x_down : x - p < 1 := by linarith [hp_err'.1]
  have hp0 : 0 < p := by linarith [hp_err'.1]
  have hx_eq : x = ((h * W : ℕ) : ℚ) / (w:ℚ) := by
    rw [hxdef, hqdef]
    push_cast
    ring
  have hd1 : n * w ≤ h * W := by
    rw [hn]
    exact Nat.div_mul_le_self (h * W) w
  have hd2 : h * W < (n + 1) * w := by
    rw [hn]
    have h2 := Nat.mod_lt (h * W) hw0
    calc h * W = w * (h * W / w) + h * W % w := (Nat.div_add_mod (h * W) w).symm
      _ < w * (h * W / w) + w := Nat.add_lt_add_left h2 _
      _ = (h * W / w + 1) * w := by ring
  have hnx_le : (n : ℚ) ≤ x := by
    rw [hx_eq, le_div_iff₀ hw0Q]
    exact_mod_cast hd1
  have hnx_lt : x < (n : ℚ) + 1 := by
    rw [hx_eq, div_lt_iff₀ hw0Q]
    exact_mod_cast hd2
  have hfloor_le : Int.floor p ≤ (n : ℤ) + 1 := by
    have hlt : Int.floor p < (n : ℤ) + 2 := by
      rw [Int.floor_lt]
      push_cast
      linarith
    omega
  have hfloor_ge : (n : ℤ) - 1 ≤ Int.floor p := by
    rw [Int.le_floor]
    push_cast
    linarith
  have htn : ((Int.floor p).toNat : ℤ) = Int.floor p :=
    Int.toNat_of_nonneg (Int.floor_nonneg.mpr (le_of_lt hp0))
  constructor <;> rw [htn] <;> omega

theorem natDiv_eq_ratio_floor (h W w : Nat) :
    h * W / w = ⌊(h : ℚ) * ((W : ℚ) / (w : ℚ))⌋₊ := by
  rw [mul_div_assoc']
  rw [show ((h : ℚ) * (W : ℚ)) = ((h * W : ℕ) : ℚ) by push_cast; ring]
  rw [Nat.floor_div_eq_div]

end BgRemover

namespace BgRemover

/-! ### Claims -/

/-- C1: for every upload request, if `validate_image` returns Invalid for the
uploaded bytes and filename, the response is HTTP 400 carrying the validation
reason as its detail, and the pipeline (`remove_background`) is never invoked:
the response is identical for every possible pipeline oracle. -/
theorem c1_invalid_never_processed (s : Settings) (verify : List Nat → VerifyResult)
    (process process2 : List Nat → Except String (List Nat))
    (image_bytes : List Nat) (filename : String)
    (h : (validate_image s verify image_bytes filename).1 = false) :
    remove_background_route s verify process image_bytes filename =
      Response.httpError 400 (validate_image s verify image_bytes filename).2 ∧
    remove_background_route s verify process image_bytes filename =
      remove_background_route s verify process2 image_bytes filename := by
  unfold remove_background_route
  rw [if_pos h, if_pos h]
  exact ⟨rfl, rfl⟩

/-- Witness for C1 at a concrete invalid upload (filename with no dot). -/
theorem c1_witness :
    (validate_image defaultSettings verifyOk [] "photo").1 = false ∧
    remove_background_route defaultSettings verifyOk processOk [] "photo" =
      Response.httpError 400 (validate_image defaultSettings verifyOk [] "photo").2 ∧
    remove_background_route defaultSettings verifyOk processOk [] "photo" =
      remove_background_route defaultSettings verifyOk processBoom [] "photo" :=
  ⟨by decide,
   (c1_invalid_never_processed defaultSettings verifyOk processOk processBoom [] "photo" (by decide)).1,
   (c1_invalid_never_processed defaultSettings verifyOk processOk processBoom [] "photo" (by decide)).2⟩

/-- C2: `validate_image` returns Invalid with a size-related reason iff the
byte length exceeds `maxFileSizeBytes` (= maxFileSizeMB * 1024 * 1024); the
reason then contains the configured limit in MB and the actual size in MB to
two decimal places. -/
theorem c2_size_check (s : Settings) (v : List Nat → VerifyResult)
    (b : List Nat) (f : String) :
    (((validate_image s v b f).1 = false ∧
        startsWithStr sizeReasonPre (validate_image s v b f).2) ↔
      b.length > s.maxFileSizeBytes) ∧
    (b.length > s.maxFileSizeBytes →
      validate_image s v b f = (false, sizeReason s b.length) ∧
      containsStr (toString s.maxFileSizeMB ++ "MB") (sizeReason s b.length) ∧
      containsStr (fmtSizeMB b.length ++ "MB") (sizeReason s b.length)) := by
  constructor
  · constructor
    · rintro ⟨hf, hp⟩
      by_contra hb
      unfold validate_image at hf hp
      rw [if_neg hb] at hf hp
      by_cases he : fileExt f ∉ allowedExtensions
      · rw [if_pos he] at hp
        exact ext_not_sizePre hp
      · rw [if_neg he] at hf hp
        cases hv : v b <;> rw [hv] at hf hp
        · simp at hf
        · exact corrupt_not_sizePre _ hp
    · intro hb
      unfold validate_image
      rw [if_pos hb]
      exact ⟨rfl, sizeReason_starts s b.length⟩
  · intro hb
    refine ⟨?_, sizeReason_contains_limit s b.length, sizeReason_contains_size s b.length⟩
    unfold validate_image
    rw [if_pos hb]

/-- Witness for C2: a 1-byte upload against a 0MB limit is rejected on size,
with the limit and the rounded size rendered in the reason. -/
theorem c2_witness :
    ([0] : List Nat).length > ({ defaultSettings with maxFileSizeMB := 0 } : Settings).maxFileSizeBytes ∧
    validate_image { defaultSettings with maxFileSizeMB := 0 } verifyOk [0] "a.jpg" =
      (false, sizeReason { defaultSettings with maxFileSizeMB := 0 } 1) ∧
    sizeReason { defaultSettings with maxFileSizeMB := 0 } 1 =
      "File too large. Maximum size is 0MB, got 0.00MB" :=
  ⟨by decide,
   ((c2_size_check { defaultSettings with maxFileSizeMB := 0 } verifyOk [0] "a.jpg").2 (by decide)).1,
   by decide⟩

/-- C3: for uploads within the size limit, `validate_image` returns Invalid
with an extension-related reason iff the lower-cased substring from the last
dot of the filename to its end is not an allowed extension, and the failure
reason lists every allowed extension. -/
theorem c3_ext_check (s : Settings) (v : List Nat → VerifyResult)
    (b : List Nat) (f : String) (hs : b.length ≤ s.maxFileSizeBytes) :
    (((validate_image s v b f).1 = false ∧
        startsWithStr extReasonPre (validate_image s v b f).2) ↔
      specExt f ∉ allowedExtensions) ∧
    (specExt f ∉ allowedExtensions →
      validate_image s v b f = (false, extReason)) ∧
    (∀ x ∈ allowedExtensions, containsStr x extReason) := by
  have hnb : ¬ b.length > s.maxFileSizeBytes := by omega
  have hreject : specExt f ∉ allowedExtensions →
      validate_image s v b f = (false, extReason) := by
    intro hmem
    have hfe : fileExt f ∉ allowedExtensions := fun hc => hmem ((specExt_mem_iff f).mp hc)
    unfold validate_image
    rw [if_neg hnb, if_pos hfe]
  refine ⟨⟨?_, ?_⟩, hreject, ?_⟩
  · rintro ⟨hf, hp⟩
    intro hmem
    have hfe : fileExt f ∈ allowedExtensions := (specExt_mem_iff f).mpr hmem
    unfold validate_image at hf hp
    rw [if_neg hnb, if_neg (by simp [hfe])] at hf hp
    cases hv : v b <;> rw [hv] at hf hp
    · simp at hf
    · exact corrupt_not_extPre _ hp
  · intro hmem
    rw [hreject hmem]
    exact ⟨rfl, extReason_starts⟩
  · intro x hx
    simp only [allowedExtensions, List.mem_cons, List.not_mem_nil, or_false] at hx
    rcases hx with rfl | rfl | rfl
    · exact ⟨"Invalid file type. Allowed types: ".data, ", .jpeg, .png".data, by decide⟩
    · exact ⟨"Invalid file type. Allowed types: .jpg, ".data, ", .png".data, by decide⟩
    · exact ⟨"Invalid file type. Allowed types: .jpg, .jpeg, ".data, [], by decide⟩

/-- Witness for C3 at a concrete disallowed extension. -/
theorem c3_witness :
    ([] : List Nat).length ≤ defaultSettings.maxFileSizeBytes ∧
    specExt "photo.gif" ∉ allowedExtensions ∧
    validate_image defaultSettings verifyOk [] "photo.gif" = (false, extReason) :=
  ⟨by decide, by decide,
   (c3_ext_check defaultSettings verifyOk [] "photo.gif" (by decide)).2.1 (by decide)⟩

end BgRemover

namespace BgRemover

/-- C4 counterexample: the claim says a dotless filename yields the EMPTY
extension, but Python's `rfind` returns -1 and the slice `lower()[-1:]` is the
last character: for "photo" the computed extension is "o", not "". -/
theorem c4_counterexample :
    ('.' ∉ ("photo" : String).data) ∧ fileExt "photo" = "o" ∧ fileExt "photo" ≠ "" := by
  decide

/-- C4 (amended): for every filename with no dot, the computed extension is
the lower-cased last character of the filename (empty only for the empty
filename), it is never an allowed extension, so with the size check passed the
validation fails with the extension-related reason; no exception occurs (the
embedding is a total function). -/
theorem c4_no_dot_rejected (s : Settings) (v : List Nat → VerifyResult)
    (b : List Nat) (f : String)
    (hnd : rfindDot f.data = none) (hs : b.length ≤ s.maxFileSizeBytes) :
    (fileExt f).data = (f.data.map Char.toLower).drop (f.data.length - 1) ∧
    fileExt f ∉ allowedExtensions ∧
    validate_image s v b f = (false, extReason) := by
  have hne := short_not_mem _ (fileExt_len_of_none f hnd)
  refine ⟨?_, hne, ?_⟩
  · unfold fileExt
    rw [hnd]
    show (f.data.map Char.toLower).drop ((f.data.map Char.toLower).length - 1) = _
    rw [List.length_map]
  · unfold validate_image
    rw [if_neg (by omega), if_pos hne]

/-- Witness for C4's amended statement at the dotless filename "photo". -/
theorem c4_witness :
    rfindDot ("photo" : String).data = none ∧
    ([] : List Nat).length ≤ defaultSettings.maxFileSizeBytes ∧
    validate_image defaultSettings verifyOk [] "photo" = (false, extReason) :=
  ⟨by decide, by decide,
   (c4_no_dot_rejected defaultSettings verifyOk [] "photo" (by decide) (by decide)).2.2⟩

/-- C5 counterexample: the claim's exact floor formula fails on the code's
float arithmetic. For a 50176x49 bitmap at the default 1024 bound the exact
value 49 * 1024 / 50176 is exactly 1, but the double evaluation
int(49 * (1024/50176)) rounds 1/49 down twice, reaching 1 - 2^-53, which
truncates to 0. -/
theorem c5_counterexample :
    (⟨50176, 49, []⟩ : Bitmap).width > defaultSettings.maxImageWidth ∧
    (normalizeBitmap defaultSettings resampleZero ⟨50176, 49, []⟩).height = 0 ∧
    ⌊(49 : ℚ) * ((1024 : ℚ) / (50176 : ℚ))⌋₊ = 1 ∧
    (normalizeBitmap defaultSettings resampleZero ⟨50176, 49, []⟩).height ≠
      ⌊(49 : ℚ) * ((1024 : ℚ) / (50176 : ℚ))⌋₊ := by
  have hfl : ⌊(49 : ℚ) * ((1024 : ℚ) / (50176 : ℚ))⌋₊ = 1 := by
    rw [show (49 : ℚ) * ((1024 : ℚ) / (50176 : ℚ)) = 1 by norm_num]
    exact Nat.floor_one
  have hht : (normalizeBitmap defaultSettings resampleZero ⟨50176, 49, []⟩).height = 0 := by
    have hfr : (normalizeBitmap defaultSettings resampleZero ⟨50176, 49, []⟩).height =
        floatResizeHeight 49 1024 50176 := by
      unfold normalizeBitmap
      rw [if_pos (by decide)]
      rfl
    rw [hfr, floatResizeHeight_50176]
  refine ⟨by decide, hht, hfl, ?_⟩
  rw [hht, hfl]
  decide

/-- C5 (amended): a bitmap wider than `maxImageWidth` (dimensions within the
exactly-representable range) is resized to width exactly `maxImageWidth`,
with height the IEEE-double evaluation of `int(height * (maxImageWidth /
width))`; that height differs from the exact
`floor(height * maxImageWidth / width)` by at most one pixel, rather than
always equaling it. -/
theorem c5_normalizer_downscales (s : Settings)
    (resample : Bitmap → Nat → Nat → List Nat) (img : Bitmap)
    (hwide : img.width > s.maxImageWidth) (hW : 0 < s.maxImageWidth)
    (hh : 0 < img.height) (hhb : img.height ≤ 1048576) (hwb : img.width ≤ 1048576) :
    (normalizeBitmap s resample img).width = s.maxImageWidth ∧
    (normalizeBitmap s resample img).height =
      floatResizeHeight img.height s.maxImageWidth img.width ∧
    ((normalizeBitmap s resample img).height : ℤ) -
        ((img.height * s.maxImageWidth / img.width : ℕ) : ℤ) ≤ 1 ∧
    ((img.height * s.maxImageWidth / img.width : ℕ) : ℤ) -
        ((normalizeBitmap s resample img).height : ℤ) ≤ 1 ∧
    img.height * s.maxImageWidth / img.width =
      ⌊(img.height : ℚ) * ((s.maxImageWidth : ℚ) / (img.width : ℚ))⌋₊ := by
  have hclose := floatResizeHeight_close img.height s.maxImageWidth img.width
    (by omega) hhb (by omega) hwide hwb
  unfold normalizeBitmap
  rw [if_pos hwide]
  exact ⟨rfl, rfl, hclose.1, hclose.2,
    natDiv_eq_ratio_floor img.height s.maxImageWidth img.width⟩

/-- Witness for C5's amended statement at the 50176x49 bitmap, where the
float height 0 sits exactly one below the exact floor 1. -/
theorem c5_witness :
    ((⟨50176, 49, []⟩ : Bitmap).width > defaultSettings.maxImageWidth ∧
      0 < defaultSettings.maxImageWidth ∧ 0 < (⟨50176, 49, []⟩ : Bitmap).height ∧
      (⟨50176, 49, []⟩ : Bitmap).height ≤ 1048576 ∧
      (⟨50176, 49, []⟩ : Bitmap).width ≤ 1048576) ∧
    ((normalizeBitmap defaultSettings resampleZero ⟨50176, 49, []⟩).width =
        defaultSettings.maxImageWidth ∧
      (normalizeBitmap defaultSettings resampleZero ⟨50176, 49, []⟩).height =
        floatResizeHeight (⟨50176, 49, []⟩ : Bitmap).height defaultSettings.maxImageWidth
          (⟨50176, 49, []⟩ : Bitmap).width ∧
      ((normalizeBitmap defaultSettings resampleZero ⟨50176, 49, []⟩).height : ℤ) -
          (((⟨50176, 49, []⟩ : Bitmap).height * defaultSettings.maxImageWidth /
            (⟨50176, 49, []⟩ : Bitmap).width : ℕ) : ℤ) ≤ 1 ∧
      (((⟨50176, 49, []⟩ : Bitmap).height * defaultSettings.maxImageWidth /
          (⟨50176, 49, []⟩ : Bitmap).width : ℕ) : ℤ) -
          ((normalizeBitmap defaultSettings resampleZero ⟨50176, 49, []⟩).height : ℤ) ≤ 1 ∧
      (⟨50176, 49, []⟩ : Bitmap).height * defaultSettings.maxImageWidth /
          (⟨50176, 49, []⟩ : Bitmap).width =
        ⌊((⟨50176, 49, []⟩ : Bitmap).height : ℚ) *
          ((defaultSettings.maxImageWidth : ℚ) / ((⟨50176, 49, []⟩ : Bitmap).width : ℚ))⌋₊) :=
  ⟨⟨by decide, by decide, by decide, by decide, by decide⟩,
   c5_normalizer_downscales defaultSettings resampleZero ⟨50176, 49, []⟩
     (by decide) (by decide) (by decide) (by decide) (by decide)⟩

/-- C6: a bitmap whose width is within `maxImageWidth` passes through the
resize step unchanged (same width, height and pixels). -/
theorem c6_normalizer_passthrough (s : Settings)
    (resample : Bitmap → Nat → Nat → List Nat) (img : Bitmap)
    (h : img.width ≤ s.maxImageWidth) :
    normalizeBitmap s resample img = img := by
  unfold normalizeBitmap
  rw [if_neg (by omega)]

/-- Witness for C6: an 800x600 bitmap is returned untouched. -/
theorem c6_witness :
    (⟨800, 600, [1, 2]⟩ : Bitmap).width ≤ defaultSettings.maxImageWidth ∧
    normalizeBitmap defaultSettings resampleZero ⟨800, 600, [1, 2]⟩ = ⟨800, 600, [1, 2]⟩ :=
  ⟨by decide,
   c6_normalizer_passthrough defaultSettings resampleZero ⟨800, 600, [1, 2]⟩ (by decide)⟩

end BgRemover

namespace BgRemover

/-- C7: `validate_image` returns `(true, "")` iff all three checks pass (size
within bound, allowed extension, bytes verify as an image); when the
decodability oracle fails, the returned reason wraps the underlying parse
error description. -/
theorem c7_valid_iff_all_checks (s : Settings) (v : List Nat → VerifyResult)
    (b : List Nat) (f : String) :
    (validate_image s v b f = (true, "") ↔
      b.length ≤ s.maxFileSizeBytes ∧ fileExt f ∈ allowedExtensions ∧
        v b = VerifyResult.ok) ∧
    (∀ e, b.length ≤ s.maxFileSizeBytes → fileExt f ∈ allowedExtensions →
      v b = VerifyResult.error e →
      validate_image s v b f = (false, corruptReason e) ∧
        containsStr e (corruptReason e)) := by
  constructor
  · constructor
    · intro h
      unfold validate_image at h
      by_cases h1 : b.length > s.maxFileSizeBytes
      · rw [if_pos h1] at h
        exact absurd h (by simp)
      · rw [if_neg h1] at h
        by_cases h2 : fileExt f ∉ allowedExtensions
        · rw [if_pos h2] at h
          exact absurd h (by simp [extReason])
        · cases hv : v b <;> rw [if_neg h2, hv] at h
          · exact ⟨by omega, not_not.mp h2, rfl⟩
          · exact absurd h (by simp)
    · rintro ⟨hs, he, hv⟩
      unfold validate_image
      rw [if_neg (by omega), if_neg (by simp [he]), hv]
  · intro e hs he hv
    constructor
    · unfold validate_image
      rw [if_neg (by omega), if_neg (by simp [he]), hv]
    · exact ⟨"Invalid or corrupted image file: ".data, [], by
        simp [corruptReason, strData_append]⟩

/-- Witness for C7: a tiny ".jpg" upload is Valid under an ok oracle, and
Invalid with the wrapped parse message under a failing oracle. -/
theorem c7_witness :
    validate_image defaultSettings verifyOk [] "a.jpg" = (true, "") ∧
    validate_image defaultSettings verifyBad [] "a.jpg" =
      (false, corruptReason "cannot identify image file") :=
  ⟨(c7_valid_iff_all_checks defaultSettings verifyOk [] "a.jpg").1.mpr
      ⟨by decide, by decide, rfl⟩,
   ((c7_valid_iff_all_checks defaultSettings verifyBad [] "a.jpg").2
      "cannot identify image file" (by decide) (by decide) rfl).1⟩

/-- C8: when validation passes but the pipeline oracle raises with message e,
the route answers HTTP 500 with detail exactly "Error processing image: e";
the failure stage is not part of the response and no body is returned. -/
theorem c8_processing_failure_500 (s : Settings) (verify : List Nat → VerifyResult)
    (process : List Nat → Except String (List Nat))
    (image_bytes : List Nat) (filename : String) (e : String)
    (hv : (validate_image s verify image_bytes filename).1 = true)
    (hp : process image_bytes = Except.error e) :
    remove_background_route s verify process image_bytes filename =
      Response.httpError 500 ("Error processing image: " ++ e) := by
  unfold remove_background_route
  rw [if_neg (by simp [hv]), hp]

/-- Witness for C8 at a concrete raising pipeline. -/
theorem c8_witness :
    (validate_image defaultSettings verifyOk [] "a.jpg").1 = true ∧
    remove_background_route defaultSettings verifyOk processBoom [] "a.jpg" =
      Response.httpError 500 ("Error processing image: " ++ "boom") :=
  ⟨by decide,
   c8_processing_failure_500 defaultSettings verifyOk processBoom [] "a.jpg" "boom"
     (by decide) rfl⟩

/-- C9: a successful pipeline yields a 200 streaming response whose body is
the PNG bytes, media type image/png, and a Content-Disposition built from the
original filename with everything from its last dot onward removed (a last
dot always exists for a validated filename). -/
theorem c9_success_response (s : Settings) (verify : List Nat → VerifyResult)
    (process : List Nat → Except String (List Nat))
    (image_bytes : List Nat) (filename : String) (out : List Nat)
    (hv : (validate_image s verify image_bytes filename).1 = true)
    (hp : process image_bytes = Except.ok out) :
    ∃ i, rfindDot filename.data = some i ∧
      remove_background_route s verify process image_bytes filename =
        Response.stream out "image/png"
          ("attachment; filename=no_bg_" ++ String.mk (filename.data.take i) ++ ".png") := by
  obtain ⟨i, hi⟩ := validTrue_hasDot s verify image_bytes filename hv
  refine ⟨i, hi, ?_⟩
  unfold remove_background_route
  rw [if_neg (by simp [hv]), hp]
  unfold rsplitStem
  rw [hi]

/-- Witness for C9 at a concrete valid upload, plus the fully evaluated
response showing the stem "a" extracted from "a.jpg". -/
theorem c9_witness :
    ((validate_image defaultSettings verifyOk [] "a.jpg").1 = true ∧
      ∃ i, rfindDot ("a.jpg" : String).data = some i ∧
        remove_background_route defaultSettings verifyOk processOk [] "a.jpg" =
          Response.stream [7, 7, 7] "image/png"
            ("attachment; filename=no_bg_" ++ String.mk (("a.jpg" : String).data.take i) ++ ".png")) ∧
    remove_background_route defaultSettings verifyOk processOk [] "a.jpg" =
      Response.stream [7, 7, 7] "image/png" "attachment; filename=no_bg_a.png" :=
  ⟨⟨by decide,
    c9_success_response defaultSettings verifyOk processOk [] "a.jpg" [7, 7, 7]
      (by decide) rfl⟩,
   by decide⟩

/-- C10: the health endpoint is a constant payload with status "healthy" and
version hard-coded to "1.0.0" regardless of the settings, while the root
endpoint reports the configured API version, so the two version fields can
differ. -/
theorem c10_health_version_hardcoded (s : Settings) :
    health_check.status = "healthy" ∧
    health_check.version = "1.0.0" ∧
    (root s).version = s.apiVersion ∧
    ∃ s2 : Settings, (root s2).version ≠ health_check.version :=
  ⟨rfl, rfl, rfl, ⟨{ defaultSettings with apiVersion := "2.0.0" }, by decide⟩⟩

end BgRemover
